import Mathlib

/-!
Verification of the eGovern residents-data dashboard core
(`src/streamlit/app.py`) against its natural-language specification.

The tabular data model is embedded shallowly: a cell is null, a string,
a (rational) number, or a parsed date; a row is a total function from
column names to cells (as in a dataframe, every row has every column);
a table is a column list plus a row list.  `clean_data` follows the
source line by line: drop rows with a null essential field, fill the
optional categorical fields with "Unknown", coerce `avgMonthlyIncome`
to numeric, coerce `householdNum` to an integer with default 0, parse
`birthdate`, derive `age = currentYear - birthYear`, and drop rows with
an unparsable birthdate.  Column accesses on a missing column fail with
a `SchemaError` (pandas raises `KeyError`), which is the only failure.
-/

/-- A dataframe cell: missing value (NaN/None/NaT), string, finite
numeric (finite floats are modelled as rationals), non-finite numeric
(`inf true` is `-inf`, `inf false` is `+inf`; floats that
`pd.to_numeric` and `read_csv` produce from "inf"/"Infinity" literals),
or parsed datetime. -/
inductive Cell where
  | null : Cell
  | str (s : String) : Cell
  | num (q : ℚ) : Cell
  | inf (neg : Bool) : Cell
  | date (y : Int) (m : Nat) (d : Nat) : Cell
deriving DecidableEq

/-- A dataframe row: a total assignment of cells to column names. -/
def Row : Type := String → Cell

/-- Overwrite one column of a row (pandas `data[c] = v` at row level). -/
def setCell (r : Row) (k : String) (v : Cell) : Row :=
  fun k' => if k' = k then v else r k'

/-- A dataframe: its column list and its rows. -/
structure Table where
  cols : List String
  rows : List Row

/-- The errors `clean_data` can raise: a required column absent from
the schema (pandas `KeyError`; the spec calls it `SchemaError`), or the
integer cast of a non-finite `householdNum` (pandas raises "Cannot
convert non-finite values (NA or inf) to integer" from
`.astype(int)`). -/
inductive CleanError where
  | schemaError (cs : List String) : CleanError
  | intCastingError : CleanError
deriving DecidableEq

/-- The five essential fields of `clean_data` (line 15 of the source). -/
def essential_fields : List String :=
  ["gender", "birthdate", "civilStatus", "employmentStatus", "avgMonthlyIncome"]

/-- The five optional categorical fields (line 19 of the source). -/
def categorical_fields : List String :=
  ["occupation", "educationalAttainment", "relationToHead", "sectorCode", "ethnicity"]

/-- Numeric value of a digit list (most significant first). -/
def digitsVal (cs : List Char) : Nat :=
  cs.foldl (fun a c => 10 * a + (c.toNat - 48)) 0

/-- Parse an exponent suffix (optional sign, then digits). -/
def parseExp (cs : List Char) : Option Int :=
  match cs with
  | '-' :: ds =>
      if ds ≠ [] ∧ ds.all (fun c => c.isDigit) then some (-(digitsVal ds : Int)) else none
  | '+' :: ds =>
      if ds ≠ [] ∧ ds.all (fun c => c.isDigit) then some (digitsVal ds : Int) else none
  | ds =>
      if ds ≠ [] ∧ ds.all (fun c => c.isDigit) then some (digitsVal ds : Int) else none

/-- Scale a mantissa by a power of ten (the exact value of `m * 10^e`). -/
def applyExp (q : ℚ) (e : Int) : ℚ :=
  if 0 ≤ e then q * (10 : ℚ) ^ e.toNat else q / (10 : ℚ) ^ (-e).toNat

/-- Parse an unsigned decimal literal — digits, optionally a point and
more digits, optionally an `e`/`E` exponent — as an exact rational, the
grammar pandas `to_numeric` accepts for finite floats. -/
def parseUnsigned (cs : List Char) : Option ℚ :=
  let ip := cs.takeWhile (fun c => c.isDigit)
  let rest := cs.dropWhile (fun c => c.isDigit)
  match rest with
  | [] => if ip = [] then none else some (digitsVal ip : ℚ)
  | 'e' :: es =>
      if ip ≠ [] then (parseExp es).map (applyExp (digitsVal ip : ℚ)) else none
  | 'E' :: es =>
      if ip ≠ [] then (parseExp es).map (applyExp (digitsVal ip : ℚ)) else none
  | '.' :: fp0 =>
      let fp := fp0.takeWhile (fun c => c.isDigit)
      let rest2 := fp0.dropWhile (fun c => c.isDigit)
      if ip = [] ∧ fp = [] then none else
      let base : ℚ := (digitsVal ip : ℚ) + (digitsVal fp : ℚ) / ((10 : ℚ) ^ fp.length)
      match rest2 with
      | [] => some base
      | 'e' :: es => (parseExp es).map (applyExp base)
      | 'E' :: es => (parseExp es).map (applyExp base)
      | _ => none
  | _ => none

/-- Parse a signed finite decimal string as a rational; `none` when the
string is not a finite numeric literal. -/
def parseRat (s : String) : Option ℚ :=
  match s.toList with
  | '-' :: rest => (parseUnsigned rest).map (fun q => -q)
  | '+' :: rest => parseUnsigned rest
  | cs => parseUnsigned cs

/-- Case-insensitive match of the infinity literals `inf`/`infinity`
accepted by the pandas float parsers. -/
def isInfChars (cs : List Char) : Bool :=
  let ls := cs.map Char.toLower
  ls == "inf".toList || ls == "infinity".toList

/-- Parse a signed infinity literal: `some neg` when the string denotes
±infinity (`"inf"`, `"Infinity"`, signed and case-insensitive). -/
def parseInf (s : String) : Option Bool :=
  match s.toList with
  | '-' :: rest => if isInfChars rest then some true else none
  | '+' :: rest => if isInfChars rest then some false else none
  | cs => if isInfChars cs then some false else none

/-- `pd.to_numeric(-, errors='coerce')` on one cell: numbers (finite or
not) pass through, infinity literals parse to ±inf, finite numeric
strings parse to their value, everything else becomes null. -/
def toNumeric (c : Cell) : Cell :=
  match c with
  | Cell.num q => Cell.num q
  | Cell.inf b => Cell.inf b
  | Cell.str s =>
      match parseInf s with
      | some b => Cell.inf b
      | none =>
          match parseRat s with
          | some q => Cell.num q
          | none => Cell.null
  | _ => Cell.null

/-- Truncation toward zero, the semantics of `.astype(int)` on a
finite float. -/
def truncQ (q : ℚ) : Int :=
  if q < 0 then -((-q).floor) else q.floor

/-- `.fillna(0).astype(int)` on one already-coerced value: null is
filled to 0 before the cast, a finite number truncates toward zero, and
a non-finite value makes the cast raise — pandas `.astype(int)` fails
with "Cannot convert non-finite values (NA or inf) to integer". -/
def toIntCell (c : Cell) : Except CleanError Cell :=
  match c with
  | Cell.inf _ => Except.error CleanError.intCastingError
  | Cell.num q => Except.ok (Cell.num ((truncQ q : Int) : ℚ))
  | _ => Except.ok (Cell.num 0)

/-- The value `pd.to_numeric(-).fillna(0).astype(int)` stores for one
cell when the cast succeeds.  The `Cell.null` fallback of the error
branch is unreachable from `clean_data`, which fails with
`intCastingError` before mapping any row whenever some surviving row's
cast fails (the cast is a column-level operation in pandas). -/
def hnCast (c : Cell) : Cell :=
  match toIntCell (toNumeric c) with
  | Except.ok v => v
  | Except.error _ => Cell.null

/-- Whether the integer cast of this raw `householdNum` cell raises. -/
def hnCastFails (c : Cell) : Bool :=
  match toIntCell (toNumeric c) with
  | Except.error _ => true
  | Except.ok _ => false

/-- Parse a `Y-M-D` date string: year, month 1..12, day 1..31. -/
def parseDateStr (s : String) : Option (Int × Nat × Nat) :=
  let cs := s.toList
  let ys := cs.takeWhile (fun c => c ≠ '-')
  match cs.dropWhile (fun c => c ≠ '-') with
  | '-' :: r2 =>
      let ms := r2.takeWhile (fun c => c ≠ '-')
      match r2.dropWhile (fun c => c ≠ '-') with
      | '-' :: ds =>
          if ys ≠ [] ∧ ys.all (fun c => c.isDigit) ∧ ms ≠ [] ∧ ms.all (fun c => c.isDigit)
              ∧ ds ≠ [] ∧ ds.all (fun c => c.isDigit) then
            let m := digitsVal ms
            let d := digitsVal ds
            if 1 ≤ m ∧ m ≤ 12 ∧ 1 ≤ d ∧ d ≤ 31 then
              some ((digitsVal ys : Int), m, d)
            else none
          else none
      | _ => none
  | _ => none

/-- `pd.to_datetime(-, errors='coerce')` on one cell: dates pass
through, parsable date strings parse, everything else becomes NaT. -/
def toDatetime (c : Cell) : Cell :=
  match c with
  | Cell.date y m d => Cell.date y m d
  | Cell.str s =>
      match parseDateStr s with
      | some (y, m, d) => Cell.date y m d
      | none => Cell.null
  | _ => Cell.null

/-- `age = current_year - birthdate.dt.year`: null when birthdate is NaT. -/
def ageCell (currentYear : Int) (c : Cell) : Cell :=
  match c with
  | Cell.date y _ _ => Cell.num ((currentYear - y : Int) : ℚ)
  | _ => Cell.null

/-- One step of the categorical fill loop:
`data[field] = data[field].fillna('Unknown')`. -/
def fillUnknown (r : Row) (f : String) : Row :=
  setCell r f (if r f = Cell.null then Cell.str "Unknown" else r f)

/-- The row-wise part of `clean_data` (lines 20-30 of the source):
categorical fill, numeric coercions, date parse, age derivation. -/
def cleanRow (currentYear : Int) (r : Row) : Row :=
  let r1 := categorical_fields.foldl fillUnknown r
  let r2 := setCell r1 "avgMonthlyIncome" (toNumeric (r1 "avgMonthlyIncome"))
  let r3 := setCell r2 "householdNum" (hnCast (r2 "householdNum"))
  let r4 := setCell r3 "birthdate" (toDatetime (r3 "birthdate"))
  setCell r4 "age" (ageCell currentYear (r4 "birthdate"))

/-- Row filter of `data.dropna(subset=essential_fields)` (line 16). -/
def essOk (r : Row) : Bool :=
  essential_fields.all (fun f => !(r f == Cell.null))

/-- Row filter of `data.dropna(subset=['birthdate', 'age'])` (line 33). -/
def keepOk (r : Row) : Bool :=
  !(r "birthdate" == Cell.null) && !(r "age" == Cell.null)

/-- The assignment `data['age'] = ...` appends an `age` column when absent. -/
def addAgeCol (cols : List String) : List String :=
  if "age" ∈ cols then cols else cols ++ ["age"]

/-- `clean_data` (lines 10-35 of the source), with the current calendar
year as an explicit parameter.  Accessing a column missing from the
schema raises (`dropna(subset=...)`, the categorical fill loop, and the
`householdNum` coercion each read named columns), and the column-level
`.astype(int)` on `householdNum` (line 25, applied to the rows that
survived the essential-field drop) raises when any of those rows holds
a value coercing to ±inf; all other failures degrade to
null/default/drop at row level. -/
def clean_data (currentYear : Int) (t : Table) : Except CleanError Table :=
  let missE := essential_fields.filter (fun f => !(t.cols.contains f))
  if missE ≠ [] then Except.error (CleanError.schemaError missE) else
  let missC := categorical_fields.filter (fun f => !(t.cols.contains f))
  if missC ≠ [] then Except.error (CleanError.schemaError missC) else
  if !(t.cols.contains "householdNum") then
    Except.error (CleanError.schemaError ["householdNum"]) else
  if (t.rows.filter essOk).any (fun r => hnCastFails (r "householdNum")) then
    Except.error CleanError.intCastingError else
  Except.ok
    { cols := addAgeCol t.cols
      rows := ((t.rows.filter essOk).map (cleanRow currentYear)).filter keepOk }

/-- Build a row from an association list; unlisted columns are null. -/
def mkRow (l : List (String × Cell)) : Row :=
  fun k => ((l.find? (fun p => p.1 == k)).map Prod.snd).getD Cell.null

example : parseRat "15000" = some 15000 := by decide

example : parseRat "abc" = none := by decide

example : parseRat "-2" = some (-2) := by decide

example : parseRat "2.5" = some (5/2) := by with_unfolding_all decide

example : parseDateStr "2000-1-1" = some (2000, 1, 1) := by decide

example : parseDateStr "hello" = none := by decide

example : truncQ (5/2) = 2 ∧ truncQ (-(5/2)) = -2 := by with_unfolding_all decide

example : parseInf "inf" = some false := by with_unfolding_all decide

example : parseInf "-Infinity" = some true := by with_unfolding_all decide

example : parseInf "15000" = none ∧ parseInf "information" = none := by
  with_unfolding_all decide

example : parseRat "2.5e2" = some 250 := by with_unfolding_all decide

example : parseRat "1e-2" = some (1/100) := by with_unfolding_all decide

example : parseRat "inf" = none := by with_unfolding_all decide

example : toNumeric (Cell.str "INF") = Cell.inf false := by with_unfolding_all decide

example : hnCastFails (Cell.str "inf") = true ∧ hnCastFails (Cell.str "junk") = false ∧
    hnCastFails Cell.null = false ∧ hnCastFails (Cell.str "-2") = false := by
  with_unfolding_all decide

theorem setCell_same (r : Row) (k : String) (v : Cell) : setCell r k v k = v := by
  simp [setCell]

theorem setCell_other (r : Row) (k k' : String) (v : Cell) (h : k' ≠ k) :
    setCell r k v k' = r k' := by
  simp [setCell, h]

theorem setCell_self (r : Row) (k : String) : setCell r k (r k) = r := by
  funext k'
  by_cases h : k' = k
  · subst h; simp [setCell]
  · simp [setCell, h]

theorem fillUnknown_at (r : Row) (f : String) :
    fillUnknown r f f = (if r f = Cell.null then Cell.str "Unknown" else r f) := by
  simp [fillUnknown, setCell_same]

theorem fillUnknown_other (r : Row) (f k : String) (h : k ≠ f) :
    fillUnknown r f k = r k := by
  simp [fillUnknown, setCell, h]

theorem fillCats_other (r : Row) (k : String) (h : k ∉ categorical_fields) :
    (categorical_fields.foldl fillUnknown r) k = r k := by
  simp only [categorical_fields, List.mem_cons, List.not_mem_nil, or_false] at h
  push_neg at h
  obtain ⟨h1, h2, h3, h4, h5⟩ := h
  simp [categorical_fields, List.foldl, fillUnknown, setCell, h1, h2, h3, h4, h5]

theorem fillCats_cat (r : Row) (f : String) (h : f ∈ categorical_fields) :
    (categorical_fields.foldl fillUnknown r) f =
      (if r f = Cell.null then Cell.str "Unknown" else r f) := by
  fin_cases h <;>
    simp [categorical_fields, List.foldl, fillUnknown, setCell]

theorem cleanRow_cat (y : Int) (r : Row) (f : String) (h : f ∈ categorical_fields) :
    cleanRow y r f = (if r f = Cell.null then Cell.str "Unknown" else r f) := by
  have hne : f ≠ "avgMonthlyIncome" ∧ f ≠ "householdNum" ∧ f ≠ "birthdate" ∧ f ≠ "age" := by
    fin_cases h <;> exact ⟨by decide, by decide, by decide, by decide⟩
  simp only [cleanRow]
  rw [setCell_other _ _ _ _ hne.2.2.2, setCell_other _ _ _ _ hne.2.2.1,
    setCell_other _ _ _ _ hne.2.1, setCell_other _ _ _ _ hne.1]
  exact fillCats_cat r f h

theorem cleanRow_income (y : Int) (r : Row) :
    cleanRow y r "avgMonthlyIncome" = toNumeric (r "avgMonthlyIncome") := by
  simp [cleanRow, setCell, fillCats_other r "avgMonthlyIncome" (by decide)]

theorem cleanRow_hn (y : Int) (r : Row) :
    cleanRow y r "householdNum" = hnCast (r "householdNum") := by
  simp [cleanRow, setCell, fillCats_other r "householdNum" (by decide)]

theorem cleanRow_bd (y : Int) (r : Row) :
    cleanRow y r "birthdate" = toDatetime (r "birthdate") := by
  simp [cleanRow, setCell, fillCats_other r "birthdate" (by decide)]

theorem cleanRow_age (y : Int) (r : Row) :
    cleanRow y r "age" = ageCell y (toDatetime (r "birthdate")) := by
  simp [cleanRow, setCell, fillCats_other r "birthdate" (by decide)]

theorem cleanRow_untouched (y : Int) (r : Row) (k : String)
    (h0 : k ∉ categorical_fields) (h1 : k ≠ "avgMonthlyIncome")
    (h2 : k ≠ "householdNum") (h3 : k ≠ "birthdate") (h4 : k ≠ "age") :
    cleanRow y r k = r k := by
  simp [cleanRow, setCell, h1, h2, h3, h4, fillCats_other r k h0]

theorem clean_data_ok_elim {y : Int} {t t1 : Table} (h : clean_data y t = Except.ok t1) :
    t1.cols = addAgeCol t.cols ∧
    t1.rows = ((t.rows.filter essOk).map (cleanRow y)).filter keepOk ∧
    ∀ r ∈ t.rows.filter essOk, hnCastFails (r "householdNum") = false := by
  simp only [clean_data] at h
  split at h
  · exact absurd h (by simp)
  · split at h
    · exact absurd h (by simp)
    · split at h
      · exact absurd h (by simp)
      · split at h
        · exact absurd h (by simp)
        · rename_i hguard
          cases h
          refine ⟨rfl, rfl, ?_⟩
          intro r hr
          rw [Bool.not_eq_true, List.any_eq_false] at hguard
          simpa using hguard r hr

/-- All twelve columns read by `clean_data`. -/
def requiredColumns : List String :=
  essential_fields ++ categorical_fields ++ ["householdNum"]

theorem clean_data_schema_pass (y : Int) (t : Table)
    (hall : ∀ f ∈ requiredColumns, f ∈ t.cols) :
    clean_data y t =
      (if (t.rows.filter essOk).any (fun r => hnCastFails (r "householdNum")) then
        Except.error CleanError.intCastingError else
      Except.ok
        { cols := addAgeCol t.cols
          rows := ((t.rows.filter essOk).map (cleanRow y)).filter keepOk }) := by
  have hmem : ∀ (l : List String), (∀ f ∈ l, f ∈ t.cols) →
      l.filter (fun f => !(t.cols.contains f)) = [] := by
    intro l hl
    rw [List.filter_eq_nil_iff]
    intro f hf
    simp only [Bool.not_eq_true', Bool.not_eq_false]
    exact List.elem_iff.mpr (hl f hf)
  have hE : ∀ f ∈ essential_fields, f ∈ t.cols := by
    intro f hf
    exact hall f (by simp [requiredColumns, hf])
  have hC : ∀ f ∈ categorical_fields, f ∈ t.cols := by
    intro f hf
    exact hall f (by simp [requiredColumns, hf])
  have hH : t.cols.contains "householdNum" = true :=
    List.elem_iff.mpr (hall _ (by simp [requiredColumns]))
  simp only [clean_data, hmem _ hE, hmem _ hC, hH]
  simp

/-- A raw row whose `householdNum` is the string "inf", which pandas
parses to float infinity; all other required values are present and
clean. -/
def rowInfHousehold : Row :=
  mkRow [("gender", Cell.str "M"), ("birthdate", Cell.str "2000-1-1"),
         ("civilStatus", Cell.str "Single"), ("employmentStatus", Cell.str "Employed"),
         ("avgMonthlyIncome", Cell.str "15000"), ("householdNum", Cell.str "inf")]

/-- A raw table with the full schema and the single row `rowInfHousehold`. -/
def tableInfHousehold : Table :=
  { cols := requiredColumns, rows := [rowInfHousehold] }

/-- A full-schema table with one row of unparsable values (bad date,
bad number for `householdNum`, bad income). -/
def tableGarbage : Table :=
  { cols := requiredColumns,
    rows := [mkRow [("gender", Cell.str "M"), ("birthdate", Cell.str "not a date"),
                    ("civilStatus", Cell.str "Single"), ("employmentStatus", Cell.str "E"),
                    ("avgMonthlyIncome", Cell.str "not a number"),
                    ("householdNum", Cell.str "junk")]] }

/-- C3 counterexample: the claim says `clean` never raises once the
schema is present — individual bad values degrade to null, default, or
row drop.  But pandas parses "inf" to float infinity, which passes
`to_numeric(errors='coerce')` untouched, and the column-level
`.astype(int)` on `householdNum` (line 25) then raises "Cannot convert
non-finite values (NA or inf) to integer": on a full-schema table whose
single row has `householdNum = "inf"` (every essential value present
and valid), `clean` fails with that cast error. -/
theorem clean_raises_on_nonfinite_householdNum :
    clean_data 2026 tableInfHousehold = Except.error CleanError.intCastingError ∧
    (∀ f ∈ requiredColumns, f ∈ tableInfHousehold.cols) ∧
    essOk rowInfHousehold = true := by
  refine ⟨by with_unfolding_all rfl, by decide, by with_unfolding_all decide⟩

/-- C3 (amended): `clean_data` fails with a `SchemaError` when the
essential-field set is entirely absent from the schema.  With the full
schema present, unparsable dates and numbers never raise — every value
whose `householdNum` coercion is finite or null degrades to null,
default, or row drop, and `clean` succeeds; but when some row surviving
the essential drop carries a `householdNum` coercing to ±inf (the
strings "inf"/"Infinity" and signed variants), the integer cast raises,
so `clean` is not raise-free for arbitrary row-level values. -/
theorem clean_schema_error_policy (y : Int) (t : Table) :
    ((∀ f ∈ essential_fields, f ∉ t.cols) →
      ∃ cs, clean_data y t = Except.error (CleanError.schemaError cs)) ∧
    ((∀ f ∈ requiredColumns, f ∈ t.cols) →
      (∀ r ∈ t.rows, hnCastFails (r "householdNum") = false) →
      ∃ t1, clean_data y t = Except.ok t1) ∧
    ((∀ f ∈ requiredColumns, f ∈ t.cols) →
      (∃ r ∈ t.rows, essOk r = true ∧ hnCastFails (r "householdNum") = true) →
      clean_data y t = Except.error CleanError.intCastingError) := by
  refine ⟨?_, ?_, ?_⟩
  · intro habs
    have hfilter : essential_fields.filter (fun f => !(t.cols.contains f)) = essential_fields := by
      rw [List.filter_eq_self]
      intro f hf
      simp only [Bool.not_eq_true', ← Bool.not_eq_true]
      intro hc
      exact habs f hf (List.elem_iff.mp hc)
    refine ⟨essential_fields, ?_⟩
    simp only [clean_data, hfilter]
    simp [essential_fields]
  · intro hall hfin
    have hguard : (t.rows.filter essOk).any (fun r => hnCastFails (r "householdNum")) = false := by
      rw [List.any_eq_false]
      intro r hr
      simp [hfin r (List.mem_filter.mp hr).1]
    refine ⟨{ cols := addAgeCol t.cols,
              rows := ((t.rows.filter essOk).map (cleanRow y)).filter keepOk }, ?_⟩
    rw [clean_data_schema_pass y t hall, if_neg (by simp [hguard])]
  · rintro hall ⟨r, hr, hess, hfail⟩
    rw [clean_data_schema_pass y t hall, if_pos]
    rw [List.any_eq_true]
    exact ⟨r, List.mem_filter.mpr ⟨hr, hess⟩, hfail⟩

/-- Witness for C3: a schema with no essential column fails with a
`SchemaError`; a full schema whose garbage values all fail coercion
(finite path) succeeds without raising; and the full-schema table with
`householdNum = "inf"` fails with the integer-cast error. -/
theorem clean_schema_error_policy_witness :
    (∃ cs, clean_data 2026 { cols := ["x"], rows := [] }
        = Except.error (CleanError.schemaError cs)) ∧
    (∃ t1, clean_data 2026 tableGarbage = Except.ok t1) ∧
    clean_data 2026 tableInfHousehold = Except.error CleanError.intCastingError :=
  ⟨(clean_schema_error_policy 2026 _).1 (by decide),
   (clean_schema_error_policy 2026 _).2.1 (by decide) (by with_unfolding_all decide),
   (clean_schema_error_policy 2026 _).2.2 (by decide) (by with_unfolding_all decide)⟩

theorem toNumeric_cases (c : Cell) :
    toNumeric c = Cell.null ∨ (∃ q, toNumeric c = Cell.num q) ∨
      ∃ b, toNumeric c = Cell.inf b := by
  cases c with
  | str s =>
      cases hi : parseInf s with
      | some b => right; right; exact ⟨b, by simp [toNumeric, hi]⟩
      | none =>
          cases h : parseRat s with
          | none => left; simp [toNumeric, hi, h]
          | some q => right; left; exact ⟨q, by simp [toNumeric, hi, h]⟩
  | num q => right; left; exact ⟨q, rfl⟩
  | inf b => right; right; exact ⟨b, rfl⟩
  | null => left; rfl
  | date y m d => left; rfl

theorem toNumeric_idem (c : Cell) : toNumeric (toNumeric c) = toNumeric c := by
  rcases toNumeric_cases c with h | ⟨q, h⟩ | ⟨b, h⟩ <;> rw [h] <;> rfl

theorem toDatetime_cases (c : Cell) :
    toDatetime c = Cell.null ∨ ∃ y m d, toDatetime c = Cell.date y m d := by
  cases c with
  | str s =>
      cases h : parseDateStr s with
      | none => left; simp [toDatetime, h]
      | some v => right; exact ⟨v.1, v.2.1, v.2.2, by simp [toDatetime, h]⟩
  | date y m d => right; exact ⟨y, m, d, rfl⟩
  | null => left; rfl
  | num q => left; rfl
  | inf b => left; rfl

theorem toDatetime_idem (c : Cell) : toDatetime (toDatetime c) = toDatetime c := by
  rcases toDatetime_cases c with h | ⟨y, m, d, h⟩ <;> rw [h] <;> rfl

theorem truncQ_intCast (z : Int) : truncQ ((z : Int) : ℚ) = z := by
  have hfloor : ∀ w : Int, ((w : Int) : ℚ).floor = w := by
    intro w
    rw [Rat.floor_def']
    simp
  by_cases h : ((z : Int) : ℚ) < 0
  · rw [truncQ, if_pos h]
    rw [show (-((z : Int) : ℚ)) = (((-z : Int) : ℚ)) by push_cast; ring, hfloor]
    ring
  · rw [truncQ, if_neg h, hfloor]

theorem toIntCell_ok_int {c v : Cell} (h : toIntCell c = Except.ok v) :
    ∃ z : Int, v = Cell.num ((z : Int) : ℚ) := by
  cases c with
  | inf b => exact absurd h (by simp [toIntCell])
  | num q =>
      refine ⟨truncQ q, ?_⟩
      simp only [toIntCell, Except.ok.injEq] at h
      exact h.symm
  | null =>
      simp only [toIntCell, Except.ok.injEq] at h
      exact ⟨0, by rw [← h]; norm_num⟩
  | str s =>
      simp only [toIntCell, Except.ok.injEq] at h
      exact ⟨0, by rw [← h]; norm_num⟩
  | date a b c =>
      simp only [toIntCell, Except.ok.injEq] at h
      exact ⟨0, by rw [← h]; norm_num⟩

theorem hnCast_int_of_ok {c : Cell} (h : hnCastFails c = false) :
    ∃ z : Int, hnCast c = Cell.num ((z : Int) : ℚ) := by
  unfold hnCast
  cases hc : toIntCell (toNumeric c) with
  | error e =>
      exfalso
      unfold hnCastFails at h
      rw [hc] at h
      simp at h
  | ok v => exact toIntCell_ok_int hc

theorem hnCast_zero_of_null {c : Cell} (h : toNumeric c = Cell.null) :
    hnCast c = Cell.num ((0 : Int) : ℚ) := by
  unfold hnCast
  rw [h]
  norm_num [toIntCell]

theorem hnCastFails_hnCast (c : Cell) : hnCastFails (hnCast c) = false := by
  unfold hnCast
  cases hc : toIntCell (toNumeric c) with
  | error e => rfl
  | ok v =>
      obtain ⟨z, rfl⟩ := toIntCell_ok_int hc
      unfold hnCastFails
      simp [toNumeric, toIntCell]

theorem hnCast_fix {c : Cell} (h : hnCastFails c = false) :
    hnCast (hnCast c) = hnCast c := by
  obtain ⟨z, hz⟩ := hnCast_int_of_ok h
  rw [hz]
  unfold hnCast
  simp [toNumeric, toIntCell, truncQ_intCast]

theorem essOk_iff (r : Row) :
    essOk r = true ↔ ∀ f ∈ essential_fields, r f ≠ Cell.null := by
  simp [essOk, List.all_eq_true]

theorem keepOk_iff (r : Row) :
    keepOk r = true ↔ r "birthdate" ≠ Cell.null ∧ r "age" ≠ Cell.null := by
  simp [keepOk]

theorem mem_clean_rows {y : Int} {t t1 : Table} (h : clean_data y t = Except.ok t1)
    {r : Row} (hr : r ∈ t1.rows) :
    ∃ r0 ∈ t.rows, essOk r0 = true ∧ r = cleanRow y r0 ∧ keepOk r = true ∧
      hnCastFails (r0 "householdNum") = false := by
  obtain ⟨-, hrows, hguard⟩ := clean_data_ok_elim h
  rw [hrows] at hr
  obtain ⟨hr1, hkeep⟩ := List.mem_filter.mp hr
  obtain ⟨r0, hr0, rfl⟩ := List.mem_map.mp hr1
  obtain ⟨hr0m, hess⟩ := List.mem_filter.mp hr0
  exact ⟨r0, hr0m, hess, rfl, hkeep, hguard r0 hr0⟩

/-- A raw row whose `avgMonthlyIncome` is a non-null string that fails
numeric coercion; all other required values are present and clean. -/
def rowIncomeBad : Row :=
  mkRow [("gender", Cell.str "M"), ("birthdate", Cell.str "2000-1-1"),
         ("civilStatus", Cell.str "Single"), ("employmentStatus", Cell.str "Employed"),
         ("avgMonthlyIncome", Cell.str "abc"), ("householdNum", Cell.str "3")]

/-- A raw table with the full schema and the single row `rowIncomeBad`. -/
def tableIncomeBad : Table :=
  { cols := requiredColumns, rows := [rowIncomeBad] }

/-- A fully well-formed raw row (parsable birthdate, numeric income). -/
def rowGood : Row :=
  mkRow [("gender", Cell.str "F"), ("birthdate", Cell.str "1990-2-3"),
         ("civilStatus", Cell.str "Single"), ("employmentStatus", Cell.str "Employed"),
         ("avgMonthlyIncome", Cell.str "15000"), ("householdNum", Cell.str "4")]

/-- A raw table with the full schema and the single row `rowGood`. -/
def tableGood : Table :=
  { cols := requiredColumns, rows := [rowGood] }

/-- Option-valued float with the comparison semantics of IEEE floats:
`none` models NaN, and every comparison against NaN is false. -/
def PFloat : Type := Option ℚ

/-- Strict less-than on possibly-NaN floats: false when either side is NaN. -/
def pLt (a b : PFloat) : Bool :=
  match a, b with
  | some x, some y => decide (x < y)
  | _, _ => false

/-- Non-strict less-or-equal on possibly-NaN floats: false when either side is NaN. -/
def pLe (a b : PFloat) : Bool :=
  match a, b with
  | some x, some y => decide (x ≤ y)
  | _, _ => false

/-- `interpret_correlation` (lines 445-462 of the source): the elif
chain of threshold comparisons, with Python's chained-comparison and
NaN semantics. -/
def interpret_correlation (v : PFloat) : String :=
  if pLt (some (8/10)) v then "Strong Positive Correlation"
  else if pLt (some (5/10)) v && pLe v (some (8/10)) then "Moderate Positive Correlation"
  else if pLt (some (2/10)) v && pLe v (some (5/10)) then "Weak Positive Correlation"
  else if pLt (some (-(2/10))) v && pLe v (some (2/10)) then "No Correlation"
  else if pLe (some (-(5/10))) v && pLt v (some (-(2/10))) then "Weak Negative Correlation"
  else if pLe (some (-(8/10))) v && pLt v (some (-(5/10))) then "Moderate Negative Correlation"
  else "Strong Negative Correlation"

/-- C5: the claim places exactly `-0.2` in the "No Correlation" class
(`[-0.2, 0.2]` closed on both ends).  The code's elif chain covers
`(-0.2, 0.2]` and `[-0.5, -0.2)`, so the input `-0.2` satisfies no
branch and falls through to the final else: the code answers
"Strong Negative Correlation" at `-0.2`, contradicting the claim
(and, absurdly, the monotone intent of the classification). -/
theorem interpret_correlation_at_neg_point_two :
    interpret_correlation (some (-(2/10))) = "Strong Negative Correlation" ∧
    interpret_correlation (some (-(2/10))) ≠ "No Correlation" := by
  with_unfolding_all decide

/-- C10: `interpret_correlation` is total — every input, including NaN,
lands in one of the seven classes — NaN (all comparisons false) and
more generally any input satisfying none of the six branch conditions
is classified "Strong Negative Correlation" by the final else. -/
theorem interpret_correlation_total_else_strong_negative :
    (∀ v : PFloat, interpret_correlation v ∈
      ["Strong Positive Correlation", "Moderate Positive Correlation",
       "Weak Positive Correlation", "No Correlation",
       "Weak Negative Correlation", "Moderate Negative Correlation",
       "Strong Negative Correlation"]) ∧
    interpret_correlation none = "Strong Negative Correlation" ∧
    (∀ v : PFloat,
      pLt (some (8/10)) v = false →
      (pLt (some (5/10)) v && pLe v (some (8/10))) = false →
      (pLt (some (2/10)) v && pLe v (some (5/10))) = false →
      (pLt (some (-(2/10))) v && pLe v (some (2/10))) = false →
      (pLe (some (-(5/10))) v && pLt v (some (-(2/10)))) = false →
      (pLe (some (-(8/10))) v && pLt v (some (-(5/10)))) = false →
      interpret_correlation v = "Strong Negative Correlation") := by
  refine ⟨?_, by with_unfolding_all decide, ?_⟩
  · intro v
    unfold interpret_correlation
    split
    · simp
    · split
      · simp
      · split
        · simp
        · split
          · simp
          · split
            · simp
            · split <;> simp
  · intro v h1 h2 h3 h4 h5 h6
    unfold interpret_correlation
    rw [h1, h2, h3, h4, h5, h6]
    rfl

/-- Witness for C10: at the concrete input NaN every branch condition
evaluates to false and the classification is the final else branch. -/
theorem interpret_correlation_total_witness :
    interpret_correlation none = "Strong Negative Correlation" :=
  interpret_correlation_total_else_strong_negative.2.2 none
    (by decide) (by decide) (by decide) (by decide) (by decide) (by decide)

/-- C2 counterexample: the claim asserts every row of the cleaned table
has non-null values in all five essential fields; but a row whose raw
`avgMonthlyIncome` is the non-null string "abc" survives the essential
drop (performed before coercion), is then coerced to null, and is kept:
the cleaned table contains a row with a null `avgMonthlyIncome`. -/
theorem clean_output_income_can_be_null :
    (clean_data 2026 tableIncomeBad).toOption.map
        (fun t => t.rows.map (fun r => r "avgMonthlyIncome")) = some [Cell.null] ∧
    (clean_data 2026 tableIncomeBad).toOption.map (fun t => t.rows.length) = some 1 := by
  with_unfolding_all decide

/-- C2 (amended): every row of the cleaned table has non-null `gender`,
`civilStatus` and `employmentStatus`, a parsed (non-null) `birthdate`,
an integer `age`, and each optional categorical field is either
"Unknown" (when the original was null) or the row's non-null original
value.  `avgMonthlyIncome`, although an essential field, may be null in
the output when the raw value was a non-null string failing numeric
coercion, because the essential-field drop runs before coercion. -/
theorem clean_output_invariants (y : Int) (t t1 : Table)
    (h : clean_data y t = Except.ok t1) :
    ∀ r ∈ t1.rows,
      r "gender" ≠ Cell.null ∧
      r "civilStatus" ≠ Cell.null ∧
      r "employmentStatus" ≠ Cell.null ∧
      (∃ b m d, r "birthdate" = Cell.date b m d) ∧
      (∃ a : Int, r "age" = Cell.num ((a : Int) : ℚ)) ∧
      (∃ r0 ∈ t.rows, ∀ f ∈ categorical_fields,
        (r0 f = Cell.null ∧ r f = Cell.str "Unknown") ∨
        (r0 f ≠ Cell.null ∧ r f = r0 f)) := by
  intro r hr
  obtain ⟨r0, hr0, hess, rfl, hkeep, -⟩ := mem_clean_rows h hr
  have hessP := (essOk_iff r0).mp hess
  have hkeepP := (keepOk_iff _).mp hkeep
  refine ⟨?_, ?_, ?_, ?_, ?_, ?_⟩
  · rw [cleanRow_untouched y r0 "gender" (by decide) (by decide) (by decide) (by decide) (by decide)]
    exact hessP "gender" (by decide)
  · rw [cleanRow_untouched y r0 "civilStatus" (by decide) (by decide) (by decide) (by decide) (by decide)]
    exact hessP "civilStatus" (by decide)
  · rw [cleanRow_untouched y r0 "employmentStatus" (by decide) (by decide) (by decide) (by decide) (by decide)]
    exact hessP "employmentStatus" (by decide)
  · have hbd := hkeepP.1
    rw [cleanRow_bd] at hbd ⊢
    rcases toDatetime_cases (r0 "birthdate") with hn | ⟨b, m, d, hd⟩
    · exact absurd hn hbd
    · exact ⟨b, m, d, hd⟩
  · have hage := hkeepP.2
    rw [cleanRow_age] at hage ⊢
    rcases toDatetime_cases (r0 "birthdate") with hn | ⟨b, m, d, hd⟩
    · rw [hn] at hage
      exact absurd rfl hage
    · rw [hd]
      exact ⟨y - b, rfl⟩
  · refine ⟨r0, hr0, ?_⟩
    intro f hf
    rw [cleanRow_cat y r0 f hf]
    by_cases hnull : r0 f = Cell.null
    · left
      exact ⟨hnull, by rw [if_pos hnull]⟩
    · right
      exact ⟨hnull, by rw [if_neg hnull]⟩

/-- Witness for C2: the amended invariants instantiated on the concrete
cleaned row of `tableGood`. -/
theorem clean_output_invariants_witness :
    (cleanRow 2026 rowGood) "gender" ≠ Cell.null ∧
    (cleanRow 2026 rowGood) "civilStatus" ≠ Cell.null ∧
    (cleanRow 2026 rowGood) "employmentStatus" ≠ Cell.null ∧
    (∃ b m d, (cleanRow 2026 rowGood) "birthdate" = Cell.date b m d) ∧
    (∃ a : Int, (cleanRow 2026 rowGood) "age" = Cell.num ((a : Int) : ℚ)) ∧
    (∃ r0 ∈ tableGood.rows, ∀ f ∈ categorical_fields,
      (r0 f = Cell.null ∧ (cleanRow 2026 rowGood) f = Cell.str "Unknown") ∨
      (r0 f ≠ Cell.null ∧ (cleanRow 2026 rowGood) f = r0 f)) := by
  have h : clean_data 2026 tableGood = Except.ok
      { cols := addAgeCol requiredColumns, rows := [cleanRow 2026 rowGood] } := by
    with_unfolding_all rfl
  exact clean_output_invariants 2026 tableGood _ h (cleanRow 2026 rowGood)
    (List.mem_singleton_self _)

/-- A raw row whose `householdNum` is the string "-2" (a negative
number); all other required values are present and clean. -/
def rowNegativeHousehold : Row :=
  mkRow [("gender", Cell.str "M"), ("birthdate", Cell.str "2000-1-1"),
         ("civilStatus", Cell.str "Single"), ("employmentStatus", Cell.str "Employed"),
         ("avgMonthlyIncome", Cell.str "15000"), ("householdNum", Cell.str "-2")]

/-- A raw table with the full schema and the single row `rowNegativeHousehold`. -/
def tableNegativeHousehold : Table :=
  { cols := requiredColumns, rows := [rowNegativeHousehold] }

/-- C9 counterexample: the claim asserts `householdNum` is non-negative
in every cleaned row, but `to_numeric(...).fillna(0).astype(int)`
enforces no sign: a raw `householdNum` of "-2" survives cleaning as the
negative integer -2. -/
theorem householdNum_negative_survives :
    (clean_data 2026 tableNegativeHousehold).toOption.map
        (fun t => t.rows.map (fun r => r "householdNum")) = some [Cell.num (-2)] ∧
    ((-2 : ℚ) < 0) := by
  with_unfolding_all decide

/-- C9 (amended): after `clean`, `householdNum` is an integer in every
row — missing or non-numeric values become 0 and fractional values are
truncated toward zero — but it is not necessarily non-negative: a
negative numeric input is kept as a negative integer. -/
theorem householdNum_integer_default_zero (y : Int) (t t1 : Table)
    (h : clean_data y t = Except.ok t1) :
    ∀ r ∈ t1.rows, ∃ r0 ∈ t.rows, ∃ z : Int,
      r "householdNum" = Cell.num ((z : Int) : ℚ) ∧
      (toNumeric (r0 "householdNum") = Cell.null → z = 0) := by
  intro r hr
  obtain ⟨r0, hr0, -, rfl, -, hfin⟩ := mem_clean_rows h hr
  refine ⟨r0, hr0, ?_⟩
  rw [cleanRow_hn]
  obtain ⟨z, hz⟩ := hnCast_int_of_ok hfin
  refine ⟨z, hz, ?_⟩
  intro hnull
  rw [hnCast_zero_of_null hnull] at hz
  have h0 : ((0 : Int) : ℚ) = ((z : Int) : ℚ) := Cell.num.inj hz
  exact_mod_cast h0.symm

/-- A raw row with a null `householdNum`; all other values clean. -/
def rowNoHousehold : Row :=
  mkRow [("gender", Cell.str "F"), ("birthdate", Cell.str "1985-6-7"),
         ("civilStatus", Cell.str "Married"), ("employmentStatus", Cell.str "Employed"),
         ("avgMonthlyIncome", Cell.str "9000")]

/-- A raw table with the full schema and the single row `rowNoHousehold`. -/
def tableNoHousehold : Table :=
  { cols := requiredColumns, rows := [rowNoHousehold] }

/-- Witness for C9: on a concrete table whose `householdNum` is missing,
the cleaned row carries an integer `householdNum` defaulting to 0. -/
theorem householdNum_integer_witness :
    ∃ r0 ∈ tableNoHousehold.rows, ∃ z : Int,
      (cleanRow 2026 rowNoHousehold) "householdNum" = Cell.num ((z : Int) : ℚ) ∧
      (toNumeric (r0 "householdNum") = Cell.null → z = 0) := by
  have h : clean_data 2026 tableNoHousehold = Except.ok
      { cols := addAgeCol requiredColumns, rows := [cleanRow 2026 rowNoHousehold] } := by
    with_unfolding_all rfl
  exact householdNum_integer_default_zero 2026 tableNoHousehold _ h
    (cleanRow 2026 rowNoHousehold) (List.mem_singleton_self _)

theorem clean_data_ok_schema {y : Int} {t t1 : Table}
    (h : clean_data y t = Except.ok t1) :
    ∀ f ∈ requiredColumns, f ∈ t.cols := by
  simp only [clean_data] at h
  split at h
  · exact absurd h (by simp)
  · split at h
    · exact absurd h (by simp)
    · split at h
      · exact absurd h (by simp)
      · split at h
        · exact absurd h (by simp)
        · rename_i hE hC hH hG
          rw [not_not] at hE hC
          rw [Bool.not_eq_true, Bool.not_eq_false'] at hH
          rw [List.filter_eq_nil_iff] at hE hC
          intro f hf
          simp only [requiredColumns, List.mem_append, List.mem_singleton] at hf
          rcases hf with (hf | hf) | hf
          · have := hE f hf
            simp only [Bool.not_eq_true', Bool.not_eq_false] at this
            exact List.elem_iff.mp this
          · have := hC f hf
            simp only [Bool.not_eq_true', Bool.not_eq_false] at this
            exact List.elem_iff.mp this
          · subst hf
            exact List.elem_iff.mp hH

theorem clean_data_eq_ok (y : Int) (t : Table)
    (hall : ∀ f ∈ requiredColumns, f ∈ t.cols)
    (hguard : (t.rows.filter essOk).any (fun r => hnCastFails (r "householdNum")) = false) :
    clean_data y t = Except.ok
      { cols := addAgeCol t.cols
        rows := ((t.rows.filter essOk).map (cleanRow y)).filter keepOk } := by
  rw [clean_data_schema_pass y t hall, if_neg (by simp [hguard])]

theorem age_mem_addAgeCol (l : List String) : "age" ∈ addAgeCol l := by
  unfold addAgeCol
  split
  · assumption
  · simp

theorem mem_addAgeCol {a : String} {l : List String} (h : a ∈ l) : a ∈ addAgeCol l := by
  unfold addAgeCol
  split
  · exact h
  · exact List.mem_append_left _ h

theorem addAgeCol_idem (l : List String) : addAgeCol (addAgeCol l) = addAgeCol l := by
  conv_lhs => rw [addAgeCol]
  rw [if_pos (age_mem_addAgeCol l)]

theorem cleanRow_fixpoint (y : Int) (r0 : Row)
    (hfin : hnCastFails (r0 "householdNum") = false) :
    cleanRow y (cleanRow y r0) = cleanRow y r0 := by
  funext k
  by_cases hcat : k ∈ categorical_fields
  · rw [cleanRow_cat y _ k hcat, cleanRow_cat y r0 k hcat]
    by_cases hnull : r0 k = Cell.null
    · rw [if_pos hnull, if_neg (by simp)]
    · rw [if_neg hnull, if_neg hnull]
  · by_cases hinc : k = "avgMonthlyIncome"
    · subst hinc
      rw [cleanRow_income, cleanRow_income, toNumeric_idem]
    · by_cases hhn : k = "householdNum"
      · subst hhn
        rw [cleanRow_hn, cleanRow_hn, hnCast_fix hfin]
      · by_cases hbdk : k = "birthdate"
        · subst hbdk
          rw [cleanRow_bd, cleanRow_bd, toDatetime_idem]
        · by_cases hagek : k = "age"
          · subst hagek
            rw [cleanRow_age, cleanRow_age, cleanRow_bd, toDatetime_idem]
          · rw [cleanRow_untouched y _ k hcat hinc hhn hbdk hagek,
              cleanRow_untouched y r0 k hcat hinc hhn hbdk hagek]

/-- C1 (amended): `clean` is idempotent on every table in which numeric
coercion of `avgMonthlyIncome` only produces null from null — that is,
no row carries a non-null income value that fails to parse.  (The
counterexample shows idempotence fails without this hypothesis.) -/
theorem clean_data_idempotent_of_income_parsable (y : Int) (t : Table)
    (hinc : ∀ r ∈ t.rows,
      toNumeric (r "avgMonthlyIncome") = Cell.null → r "avgMonthlyIncome" = Cell.null) :
    (clean_data y t).bind (clean_data y) = clean_data y t := by
  cases hQ : clean_data y t with
  | error e => rfl
  | ok t1 =>
    show clean_data y t1 = Except.ok t1
    obtain ⟨hcols, hrows, -⟩ := clean_data_ok_elim hQ
    have hall : ∀ f ∈ requiredColumns, f ∈ t1.cols := by
      intro f hf
      rw [hcols]
      exact mem_addAgeCol (clean_data_ok_schema hQ f hf)
    -- every row of t1 is a fixpoint of the clean pipeline
    have hfix : ∀ r ∈ t1.rows, essOk r = true ∧ cleanRow y r = r ∧ keepOk r = true ∧
        hnCastFails (r "householdNum") = false := by
      intro r hr
      obtain ⟨r0, hr0, hess, rfl, hkeep, hfin⟩ := mem_clean_rows hQ hr
      have hessP := (essOk_iff r0).mp hess
      have hkeepP := (keepOk_iff _).mp hkeep
      have hfinr : hnCastFails (cleanRow y r0 "householdNum") = false := by
        rw [cleanRow_hn]
        exact hnCastFails_hnCast _
      refine ⟨?_, cleanRow_fixpoint y r0 hfin, hkeep, hfinr⟩
      rw [essOk_iff]
      intro f hf
      simp only [essential_fields, List.mem_cons, List.not_mem_nil, or_false] at hf
      rcases hf with rfl | rfl | rfl | rfl | rfl
      · rw [cleanRow_untouched y r0 _ (by decide) (by decide) (by decide) (by decide) (by decide)]
        exact hessP "gender" (by decide)
      · exact hkeepP.1
      · rw [cleanRow_untouched y r0 _ (by decide) (by decide) (by decide) (by decide) (by decide)]
        exact hessP "civilStatus" (by decide)
      · rw [cleanRow_untouched y r0 _ (by decide) (by decide) (by decide) (by decide) (by decide)]
        exact hessP "employmentStatus" (by decide)
      · rw [cleanRow_income]
        intro hcontra
        have h0 : r0 "avgMonthlyIncome" = Cell.null := by
          apply hinc r0 hr0
          rcases toNumeric_cases (r0 "avgMonthlyIncome") with hn | ⟨q, hq⟩ | ⟨b, hb⟩
          · exact hn
          · rw [hq] at hcontra
            exact absurd hcontra (by simp)
          · rw [hb] at hcontra
            exact absurd hcontra (by simp)
        exact hessP "avgMonthlyIncome" (by decide) h0
    have hfilter1 : t1.rows.filter essOk = t1.rows :=
      List.filter_eq_self.mpr (fun r hr => (hfix r hr).1)
    have hmap : t1.rows.map (cleanRow y) = t1.rows := by
      rw [List.map_congr_left (fun r hr => (hfix r hr).2.1), List.map_id']
    have hfilter2 : t1.rows.filter keepOk = t1.rows :=
      List.filter_eq_self.mpr (fun r hr => (hfix r hr).2.2.1)
    have hguard1 : (t1.rows.filter essOk).any
        (fun r => hnCastFails (r "householdNum")) = false := by
      rw [hfilter1, List.any_eq_false]
      intro r hr
      simp [(hfix r hr).2.2.2]
    rw [clean_data_eq_ok y t1 hall hguard1]
    have hc : addAgeCol t1.cols = t1.cols := by
      rw [hcols, addAgeCol_idem]
    rw [hfilter1, hmap, hfilter2, hc]

/-- C1 counterexample: on the full-schema table whose single row has
the non-numeric income string "abc", `clean` keeps the row (with income
coerced to null) but a second application drops it: `clean` is not
idempotent.  The spec itself records the asymmetry in its design notes
(a non-numeric income "survives cleaning but is unusable downstream"). -/
theorem clean_data_not_idempotent_on_unparsable_income :
    (clean_data 2026 tableIncomeBad).toOption.map (fun t => t.rows.length) = some 1 ∧
    ((clean_data 2026 tableIncomeBad).bind (clean_data 2026)).toOption.map
      (fun t => t.rows.length) = some 0 ∧
    ¬ ((clean_data 2026 tableIncomeBad).bind (clean_data 2026)
        = clean_data 2026 tableIncomeBad) := by
  refine ⟨?_, ?_, ?_⟩
  · with_unfolding_all decide
  · with_unfolding_all decide
  · intro hEq
    have h1 : (clean_data 2026 tableIncomeBad).toOption.map (fun t => t.rows.length)
        = some 1 := by
      with_unfolding_all decide
    have h2 : ((clean_data 2026 tableIncomeBad).bind (clean_data 2026)).toOption.map
        (fun t => t.rows.length) = some 0 := by
      with_unfolding_all decide
    rw [hEq, h1] at h2
    exact absurd h2 (by simp)

/-- Witness for C1: on the concrete table `tableGood`, whose income
parses, applying `clean` twice equals applying it once. -/
theorem clean_data_idempotent_witness :
    (clean_data 2026 tableGood).bind (clean_data 2026) = clean_data 2026 tableGood :=
  clean_data_idempotent_of_income_parsable 2026 tableGood (by
    intro r hr
    rw [show tableGood.rows = [rowGood] from rfl, List.mem_singleton] at hr
    subst hr
    with_unfolding_all decide)

/-- Python `range(a, b, 10)` over integers (closed form of its length). -/
def pyRange10 (a b : Int) : List Int :=
  (List.range (((b - a) + 9).toNat / 10)).map (fun (j : Nat) => a + 10 * (j : Int))

/-- Bucket label `f"{i}-{i + 9}"` (line 303 of the source). -/
def fmtLabel (i : Int) : String := toString i ++ "-" ++ toString (i + 9)

/-- `age_bins = list(range(age_min, age_max + 10, 10))` (line 297). -/
def ageBins (lo hi : Int) : List Int := pyRange10 lo (hi + 10)

/-- `labels=[f"{i}-{i + 9}" for i in range(age_min, age_max, 10)]` (line 303). -/
def binLabelsOf (lo hi : Int) : List String := (pyRange10 lo hi).map fmtLabel

/-- `pd.cut(-, bins=age_bins, right=False, labels=...)` on one value:
the label of the first half-open interval `[edge_j, edge_(j+1))`
containing it, NaN (`none`) when no interval does. -/
def cutAssign (edges : List Int) (labels : List String) (a : Int) : Option String :=
  ((edges.zip edges.tail).zip labels).findSome?
    (fun p => if p.1.1 ≤ a ∧ a < p.1.2 then some p.2 else none)

/-- `int(data['age'].min())` (line 295). -/
def ageMinOf (l : List Int) : Int := (l.min?).getD 0

/-- `int(data['age'].max())` (line 296). -/
def ageMaxOf (l : List Int) : Int := (l.max?).getD 0

/-- The bucket assigned to one age by `display_population_pyramid`
(lines 295-304): edges from the column minimum, labels one bucket short
of `age_max + 10`. -/
def pyramidAssign (ages : List Int) (a : Int) : Option String :=
  cutAssign (ageBins (ageMinOf ages) (ageMaxOf ages))
    (binLabelsOf (ageMinOf ages) (ageMaxOf ages)) a

/-- Rows per bucket after the groupby on the cut column (line 305);
rows whose age matched no bucket (NaN group key) are dropped. -/
def pyramidBinCounts (ages : List Int) : List (String × Nat) :=
  (binLabelsOf (ageMinOf ages) (ageMaxOf ages)).map
    (fun lb => (lb, (ages.filter (fun a => pyramidAssign ages a == some lb)).length))

theorem pyRange10_nil {a b : Int} (h : b ≤ a) : pyRange10 a b = [] := by
  unfold pyRange10
  have h0 : ((b - a) + 9).toNat / 10 = 0 := by omega
  rw [h0]
  rfl

theorem pyRange10_cons {a b : Int} (h : a < b) :
    pyRange10 a b = a :: pyRange10 (a + 10) b := by
  unfold pyRange10
  have hn : ((b - a) + 9).toNat / 10 = ((b - (a + 10)) + 9).toNat / 10 + 1 := by omega
  rw [hn, List.range_succ_eq_map, List.map_cons, List.map_map]
  refine congrArg₂ List.cons (by simp) (List.map_congr_left ?_)
  intro j hj
  simp only [Function.comp]
  push_cast
  ring

theorem pyRange10_length (lo hi : Int) :
    (pyRange10 lo hi).length = ((hi - lo) + 9).toNat / 10 := by
  unfold pyRange10
  simp

theorem cutAssign_covered : ∀ (m : Nat) (lo hi a : Int),
    (pyRange10 lo hi).length = m → lo ≤ a → a < lo + 10 * (m : Int) →
    cutAssign (ageBins lo hi) (binLabelsOf lo hi) a
      = some (fmtLabel (lo + 10 * ((a - lo) / 10))) := by
  intro m
  induction m with
  | zero =>
      intro lo hi a _ h1 h2
      exfalso
      push_cast at h2
      omega
  | succ k ih =>
      intro lo hi a hlen h1 h2
      have hlt : lo < hi := by
        by_contra hc
        push_neg at hc
        rw [pyRange10_nil hc] at hlen
        simp at hlen
      have hbins : ageBins lo hi = lo :: ageBins (lo + 10) hi := by
        unfold ageBins
        exact pyRange10_cons (by omega)
      have hbins2 : ageBins (lo + 10) hi = (lo + 10) :: ageBins (lo + 20) hi := by
        unfold ageBins
        have : (lo + 10) + 10 = lo + 20 := by ring
        rw [← this]
        exact pyRange10_cons (by omega)
      have hlabels : binLabelsOf lo hi = fmtLabel lo :: binLabelsOf (lo + 10) hi := by
        unfold binLabelsOf
        rw [pyRange10_cons hlt, List.map_cons]
      by_cases hcase : a < lo + 10
      · have hdiv : (a - lo) / 10 = 0 := by omega
        rw [hbins, hlabels]
        unfold cutAssign
        rw [hbins2]
        simp only [List.tail_cons, List.zip_cons_cons, List.findSome?_cons]
        rw [if_pos ⟨h1, hcase⟩, hdiv]
        norm_num
      · push_neg at hcase
        have hlen' : (pyRange10 (lo + 10) hi).length = k := by
          rw [pyRange10_cons hlt] at hlen
          simpa using hlen
        have ih' := ih (lo + 10) hi a hlen' (by omega)
          (by push_cast at h2 ⊢; omega)
        have hdiv : lo + 10 + 10 * ((a - (lo + 10)) / 10)
            = lo + 10 * ((a - lo) / 10) := by omega
        rw [hbins, hlabels]
        unfold cutAssign at ih' ⊢
        rw [hbins2] at ih' ⊢
        simp only [List.tail_cons, List.zip_cons_cons, List.findSome?_cons] at ih' ⊢
        rw [if_neg (by omega)]
        rw [ih', hdiv]

theorem cutAssign_above : ∀ (m : Nat) (lo hi a : Int),
    (pyRange10 lo hi).length = m → lo + 10 * (m : Int) ≤ a →
    cutAssign (ageBins lo hi) (binLabelsOf lo hi) a = none := by
  intro m
  induction m with
  | zero =>
      intro lo hi a hlen _
      have hlab : binLabelsOf lo hi = [] := by
        unfold binLabelsOf
        rw [List.length_eq_zero] at hlen
        rw [hlen]
        rfl
      unfold cutAssign
      rw [hlab, List.zip_nil_right]
      rfl
  | succ k ih =>
      intro lo hi a hlen hge
      have hlt : lo < hi := by
        by_contra hc
        push_neg at hc
        rw [pyRange10_nil hc] at hlen
        simp at hlen
      have hbins : ageBins lo hi = lo :: ageBins (lo + 10) hi := by
        unfold ageBins
        exact pyRange10_cons (by omega)
      have hbins2 : ageBins (lo + 10) hi = (lo + 10) :: ageBins (lo + 20) hi := by
        unfold ageBins
        have : (lo + 10) + 10 = lo + 20 := by ring
        rw [← this]
        exact pyRange10_cons (by omega)
      have hlabels : binLabelsOf lo hi = fmtLabel lo :: binLabelsOf (lo + 10) hi := by
        unfold binLabelsOf
        rw [pyRange10_cons hlt, List.map_cons]
      have hlen' : (pyRange10 (lo + 10) hi).length = k := by
        rw [pyRange10_cons hlt] at hlen
        simpa using hlen
      have ih' := ih (lo + 10) hi a hlen' (by push_cast at hge ⊢; omega)
      rw [hbins, hlabels]
      unfold cutAssign at ih' ⊢
      rw [hbins2] at ih' ⊢
      simp only [List.tail_cons, List.zip_cons_cons, List.findSome?_cons] at ih' ⊢
      rw [if_neg (by push_cast at hge; omega)]
      exact ih'

theorem foldl_min_le : ∀ (xs : List Int) (x a : Int), a ∈ x :: xs → xs.foldl min x ≤ a := by
  intro xs
  induction xs with
  | nil =>
      intro x a h
      rw [List.mem_singleton] at h
      subst h
      exact le_refl _
  | cons y ys ih =>
      intro x a h
      rw [List.foldl_cons]
      rcases List.mem_cons.mp h with rfl | h2
      · exact le_trans (ih (min a y) (min a y) (List.mem_cons_self _ _)) (min_le_left _ _)
      · rcases List.mem_cons.mp h2 with rfl | h3
        · exact le_trans (ih (min x a) (min x a) (List.mem_cons_self _ _)) (min_le_right _ _)
        · exact ih (min x y) a (List.mem_cons_of_mem _ h3)

theorem le_foldl_max : ∀ (xs : List Int) (x a : Int), a ∈ x :: xs → a ≤ xs.foldl max x := by
  intro xs
  induction xs with
  | nil =>
      intro x a h
      rw [List.mem_singleton] at h
      subst h
      exact le_refl _
  | cons y ys ih =>
      intro x a h
      rw [List.foldl_cons]
      rcases List.mem_cons.mp h with rfl | h2
      · exact le_trans (le_max_left _ _) (ih (max a y) (max a y) (List.mem_cons_self _ _))
      · rcases List.mem_cons.mp h2 with rfl | h3
        · exact le_trans (le_max_right _ _) (ih (max x a) (max x a) (List.mem_cons_self _ _))
        · exact ih (max x y) a (List.mem_cons_of_mem _ h3)

theorem ageMinOf_le {l : List Int} {a : Int} (h : a ∈ l) : ageMinOf l ≤ a := by
  cases l with
  | nil => cases h
  | cons x xs =>
      unfold ageMinOf
      rw [List.min?_cons']
      exact foldl_min_le xs x a h

theorem le_ageMaxOf {l : List Int} {a : Int} (h : a ∈ l) : a ≤ ageMaxOf l := by
  cases l with
  | nil => cases h
  | cons x xs =>
      unfold ageMaxOf
      rw [List.max?_cons']
      exact le_foldl_max xs x a h

/-- C4 counterexample: for ages `[5, 15, 25]` the claim asserts buckets
`"0-9"`, `"10-19"`, `"20-29"` with one row each and coverage of the
maximum.  The code starts the edges at `min = 5` (not a floor to a
multiple of 10), producing labels `"5-14"` and `"15-24"`, and because
`range(5, 25 + 10, 10) = [5, 15, 25]` ends exactly at the maximum, the
value 25 falls in no half-open interval and its row is dropped. -/
theorem pyramid_bins_on_5_15_25 :
    binLabelsOf (ageMinOf [5, 15, 25]) (ageMaxOf [5, 15, 25]) = ["5-14", "15-24"] ∧
    pyramidAssign [5, 15, 25] 25 = none ∧
    pyramidBinCounts [5, 15, 25] = [("5-14", 1), ("15-24", 1)] ∧
    binLabelsOf (ageMinOf [5, 15, 25]) (ageMaxOf [5, 15, 25]) ≠ ["0-9", "10-19", "20-29"] := by
  with_unfolding_all decide

/-- C4 (amended): binning with width 10 uses buckets labeled
`"{edge}-{edge+9}"` with half-open membership `[edge, edge+10)`,
starting at `lo = min(column)` (not floored to a multiple of 10); the
edges stop at the last multiple-of-10 offset not exceeding `max + 9`,
so a value equal to the column maximum falls in the last bucket iff
`max - min` is not a multiple of 10 — when it is, the maximum matches
no bucket and its rows are excluded. -/
theorem bin_assign_spec (ages : List Int) (a : Int) (hmem : a ∈ ages)
    (hlt : ageMinOf ages < ageMaxOf ages) :
    ((ageMaxOf ages - ageMinOf ages) % 10 ≠ 0 ∨ a ≠ ageMaxOf ages →
      ∃ e : Int, pyramidAssign ages a = some (fmtLabel e) ∧
        e ≤ a ∧ a < e + 10 ∧
        e = ageMinOf ages + 10 * ((a - ageMinOf ages) / 10)) ∧
    ((ageMaxOf ages - ageMinOf ages) % 10 = 0 ∧ a = ageMaxOf ages →
      pyramidAssign ages a = none) := by
  have h1 : ageMinOf ages ≤ a := ageMinOf_le hmem
  have h2 : a ≤ ageMaxOf ages := le_ageMaxOf hmem
  have hm := pyRange10_length (ageMinOf ages) (ageMaxOf ages)
  constructor
  · intro hcase
    refine ⟨ageMinOf ages + 10 * ((a - ageMinOf ages) / 10),
      ?_, by omega, by omega, rfl⟩
    exact cutAssign_covered _ _ _ _ hm h1 (by omega)
  · rintro ⟨hdvd, rfl⟩
    exact cutAssign_above _ _ _ _ hm (by omega)

/-- Witness for C4: ages `[5, 15, 24]` (span not a multiple of 10), the
maximum 24 lands in bucket `"15-24"` = `[15, 25)`. -/
theorem bin_assign_spec_witness :
    ∃ e : Int, pyramidAssign [5, 15, 24] 24 = some (fmtLabel e) ∧
      e ≤ 24 ∧ (24 : Int) < e + 10 ∧
      e = ageMinOf [5, 15, 24] + 10 * ((24 - ageMinOf [5, 15, 24]) / 10) :=
  (bin_assign_spec [5, 15, 24] 24 (by decide) (by decide)).1 (by decide)

/-- A pivoted table: index values, column names, and a cell function
(`fillValue = 0` semantics are baked into the cell lookup). -/
structure PivotTable where
  index : List String
  cols : List String
  cell : String → String → Nat

/-- `pyramid_data.pivot(index='age_group', columns='gender',
values='count').fillna(0)` (line 312): columns are the distinct genders
of the grouped counts, and a missing (age group, gender) combination
reads as the fill value 0. -/
def pivotCountsTable (counts : List (String × String × Nat)) : PivotTable :=
  { index := (counts.map (fun e => e.1)).dedup
    cols := (counts.map (fun e => e.2.1)).dedup
    cell := fun i g =>
      ((counts.find? (fun e => e.1 == i && e.2.1 == g)).map (fun e => e.2.2)).getD 0 }

/-- `if 'Male' not in pyramid_data.columns: pyramid_data['Male'] = 0`
(lines 315-316), and the same for 'Female' (lines 317-318). -/
def ensureGenderCol (g : String) (t : PivotTable) : PivotTable :=
  if g ∈ t.cols then t
  else { index := t.index, cols := t.cols ++ [g],
         cell := fun i c => if c = g then 0 else t.cell i c }

/-- `pyramid_data[['Male', 'Female']]` (line 320): select exactly the
two gender columns, in this fixed order; raises when either is absent
(which the two ensure steps rule out). -/
def selectMaleFemale (t : PivotTable) : Option PivotTable :=
  if "Male" ∈ t.cols ∧ "Female" ∈ t.cols then
    some { index := t.index, cols := ["Male", "Female"], cell := t.cell }
  else none

/-- The gender pivot of `display_population_pyramid` (lines 311-320). -/
def genderPivot (counts : List (String × String × Nat)) : Option PivotTable :=
  selectMaleFemale (ensureGenderCol "Female" (ensureGenderCol "Male" (pivotCountsTable counts)))

/-- C8: for every grouped-count input the gender pivot succeeds and has
exactly the columns `["Male", "Female"]` in this fixed order, and every
(age group, gender) combination absent from the input — including a
whole gender category — reads as 0. -/
theorem gender_pivot_complete (counts : List (String × String × Nat)) :
    ∃ p, genderPivot counts = some p ∧ p.cols = ["Male", "Female"] ∧
      ∀ i g, (∀ e ∈ counts, ¬(e.1 = i ∧ e.2.1 = g)) → p.cell i g = 0 := by
  have hfind : ∀ (t0 : List (String × String × Nat)) i g,
      (∀ e ∈ t0, ¬(e.1 = i ∧ e.2.1 = g)) → (pivotCountsTable t0).cell i g = 0 := by
    intro t0 i g habs
    have : t0.find? (fun e => e.1 == i && e.2.1 == g) = none := by
      rw [List.find?_eq_none]
      intro e he
      have := habs e he
      simp only [Bool.and_eq_true, beq_iff_eq]
      intro hcon
      exact this hcon
    simp [pivotCountsTable, this]
  have hmale : ∀ t : PivotTable, "Male" ∈ (ensureGenderCol "Male" t).cols := by
    intro t
    unfold ensureGenderCol
    split
    · assumption
    · simp
  have hkeep : ∀ (g g' : String) (t : PivotTable), g' ∈ t.cols →
      g' ∈ (ensureGenderCol g t).cols := by
    intro g g' t h
    unfold ensureGenderCol
    split
    · exact h
    · exact List.mem_append_left _ h
  have hfem : ∀ t : PivotTable, "Female" ∈ (ensureGenderCol "Female" t).cols := by
    intro t
    unfold ensureGenderCol
    split
    · assumption
    · simp
  have hcell : ∀ (g : String) (t : PivotTable) i g', t.cell i g' = 0 →
      (ensureGenderCol g t).cell i g' = 0 := by
    intro g t i g' h
    unfold ensureGenderCol
    split
    · exact h
    · simp only
      split
      · rfl
      · exact h
  have hsel : genderPivot counts = some
      { index := (ensureGenderCol "Female" (ensureGenderCol "Male" (pivotCountsTable counts))).index,
        cols := ["Male", "Female"],
        cell := (ensureGenderCol "Female" (ensureGenderCol "Male" (pivotCountsTable counts))).cell } := by
    unfold genderPivot selectMaleFemale
    rw [if_pos ⟨hkeep _ _ _ (hmale _), hfem _⟩]
  refine ⟨_, hsel, rfl, ?_⟩
  intro i g habs
  exact hcell _ _ _ _ (hcell _ _ _ _ (hfind counts i g habs))

/-- Witness for C8: with a single Female count in the input, the pivot
still has both columns and the absent (\"0-9\", Male) combination is 0. -/
theorem gender_pivot_complete_witness :
    ∃ p, genderPivot [("0-9", ("Female", 3))] = some p ∧
      p.cols = ["Male", "Female"] ∧ p.cell "0-9" "Male" = 0 := by
  obtain ⟨p, h1, h2, h3⟩ := gender_pivot_complete [("0-9", ("Female", 3))]
  exact ⟨p, h1, h2, h3 "0-9" "Male" (by decide)⟩

/-- `series.dropna()` on one numeric column: its non-null numeric
values in row order (`data['age'].dropna()`, line 378 of the source). -/
def colDropna (t : Table) (c : String) : List ℚ :=
  t.rows.filterMap (fun r =>
    match r c with
    | Cell.num q => some q
    | _ => none)

/-- The rows where both columns hold numbers, kept aligned: the paired
non-null observations (what `data[['age','avgMonthlyIncome']].dropna()`
yields at line 371 of the source). -/
def pairedObservations (t : Table) (ca cb : String) : List (ℚ × ℚ) :=
  t.rows.filterMap (fun r =>
    match r ca, r cb with
    | Cell.num a, Cell.num b => some (a, b)
    | _, _ => none)

/-- Modelled from the spec: ordinary least squares on paired
observations.  `scipy.stats.linregress` is external to this repository;
these are its documented OLS formulas in exact rational arithmetic:
slope `sxy/sxx`, intercept `ybar - slope*xbar`, r-squared
`sxy^2/(sxx*syy)`; `none` (degenerate) with fewer than 2 points or zero
x-variance. -/
def olsFit (l : List (ℚ × ℚ)) : Option (ℚ × ℚ × ℚ) :=
  if l.length < 2 then none else
  let n : ℚ := l.length
  let xbar := (l.map (fun p => p.1)).sum / n
  let ybar := (l.map (fun p => p.2)).sum / n
  let sxx := (l.map (fun p => (p.1 - xbar) ^ 2)).sum
  let syy := (l.map (fun p => (p.2 - ybar) ^ 2)).sum
  let sxy := (l.map (fun p => (p.1 - xbar) * (p.2 - ybar))).sum
  if sxx = 0 then none
  else some (sxy / sxx, ybar - (sxy / sxx) * xbar, sxy ^ 2 / (sxx * syy))

/-- Modelled from the spec: `linearRegression(table, colA, colB)` is
OLS over the paired non-null observations of the two columns. -/
def linearRegression (t : Table) (ca cb : String) : Option (ℚ × ℚ × ℚ) :=
  olsFit (pairedObservations t ca cb)

/-- The call at line 378 of the source:
`stats.linregress(data['age'].dropna(), data['avgMonthlyIncome'].dropna())`
drops each column's nulls independently; scipy raises `ValueError` when
the two argument lengths differ and otherwise pairs values by position
(misaligned whenever the dropped rows differ). -/
def display_demographics_linregress (t : Table) (ca cb : String) :
    Except String (Option (ℚ × ℚ × ℚ)) :=
  let xs := colDropna t ca
  let ys := colDropna t cb
  if xs.length = ys.length then Except.ok (olsFit (xs.zip ys))
  else Except.error "ValueError: unequal length arrays"

/-- A cleaned-shape table where one row has a null income: ages
`[20, 30, 40]`, incomes `[null, 10, 30]`. -/
def tableMisaligned : Table :=
  { cols := ["age", "avgMonthlyIncome"],
    rows := [mkRow [("age", Cell.num 20)],
             mkRow [("age", Cell.num 30), ("avgMonthlyIncome", Cell.num 10)],
             mkRow [("age", Cell.num 40), ("avgMonthlyIncome", Cell.num 30)]] }

/-- A table whose paired data satisfies `y = 2x + 3` exactly with no
nulls: `(1,5), (2,7), (3,9)`. -/
def tableExact : Table :=
  { cols := ["age", "avgMonthlyIncome"],
    rows := [mkRow [("age", Cell.num 1), ("avgMonthlyIncome", Cell.num 5)],
             mkRow [("age", Cell.num 2), ("avgMonthlyIncome", Cell.num 7)],
             mkRow [("age", Cell.num 3), ("avgMonthlyIncome", Cell.num 9)]] }

/-- C6: the claim says `linearRegression` regresses over the rows where
both values are non-null, kept aligned.  The code instead calls
`linregress` on per-column independent `dropna()` results: on a table
with one null income the two argument lengths differ (3 vs 2) and the
call raises `ValueError`, while the claimed paired regression is well
defined (slope 2, intercept -50, r-squared 1 on the aligned pairs).  On
null-free data exactly satisfying `y = 2x + 3` both give slope 2,
intercept 3, r-squared 1, confirming the claim's second half. -/
theorem linregress_unpaired_dropna_divergence :
    display_demographics_linregress tableMisaligned "age" "avgMonthlyIncome"
      = Except.error "ValueError: unequal length arrays" ∧
    linearRegression tableMisaligned "age" "avgMonthlyIncome" = some (2, -50, 1) ∧
    linearRegression tableExact "age" "avgMonthlyIncome" = some (2, 3, 1) ∧
    display_demographics_linregress tableExact "age" "avgMonthlyIncome"
      = Except.ok (some (2, 3, 1)) := by
  refine ⟨by with_unfolding_all rfl, ?_, ?_, by with_unfolding_all rfl⟩ <;>
    with_unfolding_all decide

